import Mathlib

/-!
Shallow embedding of lwan's per-connection HTTP request reader, parser and
dispatch driver (src/common/lwan-request.c).

Modelling conventions:
* a byte is a `Nat` (all inputs of interest have values < 256);
* a C string is the list of its bytes up to (excluding) the terminating NUL;
  the virtual NUL one past a slice's end is the end of the list;
* in-place NUL writes that split the buffer into sub-strings are modelled by
  returning the sub-strings (slices) themselves;
* machine reads beyond the resident bytes (the buffer is over-allocated and
  NUL-terminated) are modelled by `List.getD _ _ 0`, i.e. a virtual 0 byte;
* `coro_malloc` failure (coroutine abort) is not modelled: allocation always
  succeeds in the embedding;
* fallible C functions returning NULL are modelled with `Option`.
-/

/-- strcmp on two NUL-terminated strings; only the sign is ever used by the
code (qsort comparator `key_value_compare_qsort_key`), so the result is
normalised to -1/0/1. -/
def strcmp : List Nat → List Nat → Int
  | [], [] => 0
  | [], _ :: _ => -1
  | _ :: _, [] => 1
  | a :: as, b :: bs => if a < b then -1 else if b < a then 1 else strcmp as bs

/-- strncmp limited to n bytes, on NUL-terminated strings modelled as lists
(the virtual NUL is the list end). -/
def strncmp : Nat → List Nat → List Nat → Int
  | 0, _, _ => 0
  | _ + 1, [], [] => 0
  | _ + 1, [], _ :: _ => -1
  | _ + 1, _ :: _, [] => 1
  | n + 1, a :: as, b :: bs =>
      if a < b then -1 else if b < a then 1 else strncmp n as bs

theorem strcmp_nil_le (c : List Nat) : strcmp [] c ≤ 0 := by
  cases c <;> simp [strcmp]

theorem strcmp_swap : ∀ a b : List Nat, strcmp b a = -strcmp a b := by
  intro a
  induction a with
  | nil => intro b; cases b <;> simp [strcmp]
  | cons x xs ih =>
    intro b
    cases b with
    | nil => simp [strcmp]
    | cons y ys =>
      simp only [strcmp]
      by_cases h1 : x < y
      · have h2 : ¬ y < x := Nat.lt_asymm h1
        simp [h1, h2]
      · by_cases h2 : y < x
        · simp [h1, h2]
        · have hxy : ¬ x < y := h1
          simp [h1, h2, ih ys]

theorem strcmp_le_trans :
    ∀ a b c : List Nat, strcmp a b ≤ 0 → strcmp b c ≤ 0 → strcmp a c ≤ 0 := by
  intro a
  induction a with
  | nil => intro b c _ _; exact strcmp_nil_le c
  | cons x xs ih =>
    intro b c hab hbc
    cases b with
    | nil => simp [strcmp] at hab
    | cons y ys =>
      cases c with
      | nil => simp [strcmp] at hbc
      | cons z zs =>
        simp only [strcmp] at hab hbc ⊢
        split_ifs at hab hbc ⊢ <;> try omega
        all_goals first
          | omega
          | exact ih ys zs hab hbc

/-- Key-value pair: two NUL-terminated borrowed strings. -/
abbrev KVPair := List Nat × List Nat

/-- Comparator used to sort key-value arrays (strcmp on keys, ≤ 0). -/
def kvLE (p q : KVPair) : Prop := strcmp p.1 q.1 ≤ 0

instance : DecidableRel kvLE :=
  fun p q => inferInstanceAs (Decidable (strcmp p.1 q.1 ≤ 0))

instance : IsTotal KVPair kvLE := by
  constructor
  intro p q
  have h := strcmp_swap p.1 q.1
  by_cases hle : strcmp p.1 q.1 ≤ 0
  · exact Or.inl hle
  · right
    unfold kvLE
    omega

instance : IsTrans KVPair kvLE := by
  constructor
  intro p q r hpq hqr
  exact strcmp_le_trans p.1 q.1 r.1 hpq hqr

/-- is_hex_digit from the source. -/
def is_hex_digit (c : Nat) : Bool :=
  (48 ≤ c && c ≤ 57) || (97 ≤ c && c ≤ 102) || (65 ≤ c && c ≤ 70)

/-- decode_hex_digit from the source: `ch <= '9' ? ch - '0' : (ch & 7) + 9`
(callers guarantee the input is a hex digit). -/
def decode_hex_digit (c : Nat) : Nat :=
  if c ≤ 57 then c - 48 else c % 8 + 9

/-- url_decode: in-place percent/plus decoding of a NUL-terminated string.
`none` models the early `return 0` taken when a well-formed %HH escape decodes
to the NUL byte; otherwise the decoded string is returned (the C function
returns its length).  A `%` not followed by two hex digits is copied through
verbatim and decoding continues. -/
def url_decode : List Nat → Option (List Nat)
  | [] => some []
  | c :: rest =>
    if c = 37 then
      match rest with
      | a :: b :: rest2 =>
        if is_hex_digit a && is_hex_digit b then
          let t := decode_hex_digit a * 16 + decode_hex_digit b
          if t = 0 then none
          else (url_decode rest2).map (fun d => t :: d)
        else (url_decode (a :: b :: rest2)).map (fun d => 37 :: d)
      | [a] => (url_decode [a]).map (fun d => 37 :: d)
      | [] => some [37]
    else if c = 43 then (url_decode rest).map (fun d => 32 :: d)
    else (url_decode rest).map (fun d => c :: d)

/-- the size_t value the C url_decode actually returns: the new length, with 0
for the NUL-escape failure (and also for an empty decode result). -/
def url_decode_len (l : List Nat) : Nat :=
  match url_decode l with
  | none => 0
  | some d => d.length

/-- identity_decode from the source: always returns 1 (success), string
untouched. -/
def identity_decode (l : List Nat) : Option (List Nat) := some l

/-- url_decode in decoder position inside parse_key_values: the caller treats
a returned length of 0 as failure, which conflates the NUL-escape error with
an empty decoded string. -/
def url_decode_kv (l : List Nat) : Option (List Nat) :=
  match url_decode l with
  | none => none
  | some d => if d = [] then none else some d

/-- strsep_char: find the first occurrence of a delimiter in a C string (strchr
semantics: the scan stops at a NUL byte), NUL it, and return both halves. -/
def splitAtChar (c : Nat) : List Nat → Option (List Nat × List Nat)
  | [] => none
  | x :: xs =>
    if x = 0 then none
    else if x = c then some ([], xs)
    else (splitAtChar c xs).map (fun pr => (x :: pr.1, pr.2))

/-- leading `' '`/separator skip at the top of each parse_key_values
iteration. -/
def skipSpaceSep (sep : Nat) (l : List Nat) : List Nat :=
  l.dropWhile (fun c => c = 32 || c = sep)

/-- the do/while collection loop of parse_key_values.  `none` models every
early `return` that leaves the caller's base/len untouched (end-of-slice after
a separator, a missing `=`, or a decoder returning 0); `some l` is the list of
collected pairs when the loop exits normally (no separator after the last
value, or 32 pairs collected).  Fuel is structural; each iteration consumes at
least the `=` byte, so `length + 1` fuel never runs out at the call site. -/
def kvLoop (decode : List Nat → Option (List Nat)) (sep : Nat) :
    Nat → List Nat → Nat → Option (List KVPair)
  | 0, _, _ => none
  | fuel + 1, ptr, values =>
    let p1 := skipSpaceSep sep ptr
    if p1 = [] then none
    else
      match splitAtChar 61 p1 with
      | none => none
      | some (key, rest) =>
        match splitAtChar sep rest with
        | none =>
          match decode key, decode rest with
          | some k, some v => some [(k, v)]
          | _, _ => none
        | some (val, rest2) =>
          match decode key, decode val with
          | some k, some v =>
            if values + 1 < 32 then
              (kvLoop decode sep fuel rest2 (values + 1)).map
                (fun l => (k, v) :: l)
            else some [(k, v)]
          | _, _ => none

/-- parse_key_values: collect up to 32 `k=v` pairs from a slice, qsort them by
key (modelled with insertion sort over the same comparator), and publish the
result.  `none` models every path on which `*base`/`*len` are left untouched
(empty slice, or any early `return` in the loop); `some l` is the published
array content: `l` holds the first `*len = values` sorted entries, and the
`(NULL,NULL)` sentinel written at slot `values` is exposed by `kv_array`. -/
def parse_key_values (decode : List Nat → Option (List Nat)) (sep : Nat)
    (L : List Nat) : Option (List KVPair) :=
  if L = [] then none
  else (kvLoop decode sep (L.length + 1) L 0).map (List.insertionSort kvLE)

/-- the key-value array as laid out in memory: the live entries followed by
the `(NULL,NULL)` sentinel (NULL pointers modelled by `none`). -/
def kv_array (l : List KVPair) :
    List (Option (List Nat) × Option (List Nat)) :=
  l.map (fun p => (some p.1, some p.2)) ++ [(none, none)]

/-- binary-search loop of value_array_bsearch; fuel is structural, the
interval shrinks every iteration so `len + 1` fuel suffices. -/
def bsearchGo (base : List KVPair) (key : List Nat) :
    Nat → Nat → Nat → Option (List Nat)
  | 0, _, _ => none
  | fuel + 1, lower, upper =>
    if lower < upper then
      let idx := (lower + upper) / 2
      let e := base.getD idx ([], [])
      let cmp := strncmp key.length key e.1
      if cmp = 0 then some e.2
      else if cmp > 0 then bsearchGo base key fuel (idx + 1) upper
      else bsearchGo base key fuel lower idx
    else none

/-- value_array_bsearch: binary search over a sorted key-value array, comparing
with `strncmp(key, entry.key, strlen(key))`. -/
def value_array_bsearch (base : List KVPair) (key : List Nat) :
    Option (List Nat) :=
  if base.length = 0 then none
  else bsearchGo base key (base.length + 1) 0 base.length

/-- the parsed key-value lists carried by a request (base/len pairs in C,
published by parse_key_values). -/
structure LwanRequestKV where
  query_params : List KVPair := []
  post_data : List KVPair := []
  cookies : List KVPair := []

def lwan_request_get_query_param (r : LwanRequestKV) (key : List Nat) :
    Option (List Nat) :=
  value_array_bsearch r.query_params key

def lwan_request_get_post_param (r : LwanRequestKV) (key : List Nat) :
    Option (List Nat) :=
  value_array_bsearch r.post_data key

def lwan_request_get_cookie (r : LwanRequestKV) (key : List Nat) :
    Option (List Nat) :=
  value_array_bsearch r.cookies key

/-! Structural facts about the key-value collection loop. -/

theorem kvLoop_length (decode : List Nat → Option (List Nat)) (sep : Nat) :
    ∀ (fuel : Nat) (ptr : List Nat) (values : Nat) (l : List KVPair),
      values < 32 → kvLoop decode sep fuel ptr values = some l →
      l.length + values ≤ 32 := by
  intro fuel
  induction fuel with
  | zero => intro ptr values l _ h; simp [kvLoop] at h
  | succ f ih =>
    intro ptr values l hv h
    simp only [kvLoop] at h
    split at h
    · simp at h
    · split at h
      · simp at h
      · split at h
        · split at h
          · rename_i k v
            obtain rfl := Option.some_inj.mp h
            simp
            omega
          · simp at h
        · split at h
          · rename_i k v
            split at h
            · rw [Option.map_eq_some'] at h
              obtain ⟨l2, hl2, rfl⟩ := h
              have hrec := ih _ _ l2 (by omega) hl2
              simp
              omega
            · obtain rfl := Option.some_inj.mp h
              simp
              omega
          · simp at h

theorem kv_array_getLast (l : List KVPair) :
    (kv_array l).getLast? = some (none, none) := by
  simp [kv_array]

/-- C1: every slice successfully parsed by parse_key_values publishes at most
32 pairs (additional pairs are silently dropped by the loop bound), sorted so
that for all indices i < j, strcmp(kv[i].key, kv[j].key) ≤ 0, and the array as
laid out is terminated by a (NULL, NULL) sentinel entry. -/
theorem c1_parse_key_values_sorted_bounded_sentinel
    (decode : List Nat → Option (List Nat)) (sep : Nat) (L : List Nat)
    (l : List KVPair) (h : parse_key_values decode sep L = some l) :
    l.length ≤ 32 ∧ (kv_array l).getLast? = some (none, none) ∧
    ∀ (i j : Fin l.length), (i : Nat) < (j : Nat) →
      strcmp (l.get i).1 (l.get j).1 ≤ 0 := by
  unfold parse_key_values at h
  split at h
  · simp at h
  · rw [Option.map_eq_some'] at h
    obtain ⟨c, hc, rfl⟩ := h
    refine ⟨?_, kv_array_getLast _, ?_⟩
    · have hlen := kvLoop_length decode sep _ _ _ c (by omega) hc
      rw [List.length_insertionSort]
      omega
    · intro i j hij
      have hs : List.Sorted kvLE (List.insertionSort kvLE c) :=
        List.sorted_insertionSort kvLE c
      exact hs.rel_get_of_lt hij

/-- witness for C1 at the concrete cookie slice `b=2;a=1`. -/
theorem c1_witness :
    (parse_key_values identity_decode 59 [98, 61, 50, 59, 97, 61, 49] =
      some [([97], [49]), ([98], [50])]) ∧
    strcmp [97] [98] ≤ 0 := by
  have h := c1_parse_key_values_sorted_bounded_sentinel identity_decode 59
    [98, 61, 50, 59, 97, 61, 49] [([97], [49]), ([98], [50])] (by decide)
  exact ⟨by decide, h.2.2 ⟨0, by decide⟩ ⟨1, by decide⟩ (by decide)⟩

/-- C2: the three lookup functions are binary search over the stored pairs via
strncmp(key, entry.key, strlen(key)), the first probe match winning; on a
sorted list holding both `foo` and `foobar`, looking up `foo` (bytes
102,111,111) returns the value stored under `foobar`. -/
theorem c2_lookup_prefix_strncmp :
    (∀ r key, lwan_request_get_query_param r key =
        value_array_bsearch r.query_params key) ∧
    (∀ r key, lwan_request_get_post_param r key =
        value_array_bsearch r.post_data key) ∧
    (∀ r key, lwan_request_get_cookie r key =
        value_array_bsearch r.cookies key) ∧
    strcmp [102, 111, 111] [102, 111, 111, 98, 97, 114] ≤ 0 ∧
    lwan_request_get_query_param
      ⟨[([102, 111, 111], [49]), ([102, 111, 111, 98, 97, 114], [50])], [], []⟩
      [102, 111, 111] = some [50] := by
  exact ⟨fun r key => rfl, fun r key => rfl, fun r key => rfl,
    by decide, by decide⟩

/-! Facts used to trace the collection loop over well-formed pair encodings. -/

theorem url_decode_cons (c : Nat) (rest : List Nat) (h37 : c ≠ 37)
    (h43 : c ≠ 43) :
    url_decode (c :: rest) = (url_decode rest).map (fun d => c :: d) := by
  rw [url_decode.eq_def]
  simp [h37, h43]

theorem url_decode_plain :
    ∀ l : List Nat, (∀ c ∈ l, 97 ≤ c ∧ c ≤ 122) → url_decode l = some l := by
  intro l
  induction l with
  | nil => intro _; rfl
  | cons x xs ih =>
    intro h
    have hx := h x (by simp)
    have h37 : x ≠ 37 := by omega
    have h43 : x ≠ 43 := by omega
    rw [url_decode_cons x xs h37 h43, ih (fun c hc => h c (by simp [hc]))]
    rfl

/-- keys and values drawn from lowercase letters: nonempty, and disjoint from
every byte the parser treats specially (NUL, space, `%`, `+`, `=`, `&`). -/
def letterOnly (l : List Nat) : Prop := l ≠ [] ∧ ∀ c ∈ l, 97 ≤ c ∧ c ≤ 122

instance : DecidablePred letterOnly := fun l => by
  unfold letterOnly; infer_instance

theorem url_decode_kv_letter (l : List Nat) (h : letterOnly l) :
    url_decode_kv l = some l := by
  unfold url_decode_kv
  rw [url_decode_plain l h.2]
  simp [h.1]

theorem splitAtChar_append (c : Nat) (hc : c ≠ 0) :
    ∀ xs ys : List Nat, (∀ x ∈ xs, x ≠ 0 ∧ x ≠ c) →
      splitAtChar c (xs ++ c :: ys) = some (xs, ys) := by
  intro xs
  induction xs with
  | nil => intro ys _; simp [splitAtChar, hc]
  | cons x xs ih =>
    intro ys h
    have hx := h x (by simp)
    simp [splitAtChar, hx.1, hx.2, ih ys (fun z hz => h z (by simp [hz]))]

theorem skipSpaceSep_cons (sep x : Nat) (xs : List Nat) (h32 : x ≠ 32)
    (hsep : x ≠ sep) : skipSpaceSep sep (x :: xs) = x :: xs := by
  simp [skipSpaceSep, List.dropWhile_cons, h32, hsep]

/-- encoding of one `key=value` pair. -/
def encPair (p : KVPair) : List Nat := p.1 ++ 61 :: p.2

/-- a `&`-separated run of pairs followed by a trailing chunk. -/
def encodeThen (bad : List Nat) : List KVPair → List Nat
  | [] => bad
  | p :: rest => encPair p ++ 38 :: encodeThen bad rest

theorem kvLoop_bad_abort :
    ∀ (pre : List KVPair) (fuel values : Nat),
      (∀ p ∈ pre, letterOnly p.1 ∧ letterOnly p.2) →
      values + pre.length < 32 →
      (encodeThen [120, 61, 37, 48, 48] pre).length < fuel →
      kvLoop url_decode_kv 38 fuel (encodeThen [120, 61, 37, 48, 48] pre)
        values = none := by
  intro pre
  induction pre with
  | nil =>
    intro fuel values _ _ hfuel
    cases fuel with
    | zero => omega
    | succ f =>
      simp [encodeThen, kvLoop, skipSpaceSep, splitAtChar, url_decode_kv,
        url_decode, is_hex_digit, decode_hex_digit]
  | cons p pre ih =>
    intro fuel values hgood hcount hfuel
    obtain ⟨k, v⟩ := p
    have hk := (hgood (k, v) (by simp)).1
    have hv := (hgood (k, v) (by simp)).2
    obtain ⟨c0, k2, rfl⟩ : ∃ c0 k2, k = c0 :: k2 := by
      cases k with
      | nil => exact absurd rfl hk.1
      | cons a as => exact ⟨a, as, rfl⟩
    have hc0 := hk.2 c0 (by simp)
    cases fuel with
    | zero =>
      exact absurd hfuel (by omega)
    | succ f =>
      have hshape : encodeThen [120, 61, 37, 48, 48] ((c0 :: k2, v) :: pre) =
          c0 :: (k2 ++ 61 :: (v ++ 38 :: encodeThen [120, 61, 37, 48, 48] pre)) := by
        simp [encodeThen, encPair]
      rw [hshape]
      simp only [kvLoop]
      rw [skipSpaceSep_cons 38 c0 _ (by omega) (by omega)]
      rw [if_neg (by simp)]
      have hsplit1 : splitAtChar 61
          (c0 :: (k2 ++ 61 :: (v ++ 38 :: encodeThen [120, 61, 37, 48, 48] pre))) =
          some (c0 :: k2, v ++ 38 :: encodeThen [120, 61, 37, 48, 48] pre) := by
        have := splitAtChar_append 61 (by omega) (c0 :: k2)
          (v ++ 38 :: encodeThen [120, 61, 37, 48, 48] pre)
          (by
            intro x hx
            have := hk.2 x hx
            omega)
        simpa using this
      have hsplit2 : splitAtChar 38
          (v ++ 38 :: encodeThen [120, 61, 37, 48, 48] pre) =
          some (v, encodeThen [120, 61, 37, 48, 48] pre) := by
        exact splitAtChar_append 38 (by omega) v _
          (by
            intro x hx
            have := hv.2 x hx
            omega)
      have hdk := url_decode_kv_letter (c0 :: k2) hk
      have hdv := url_decode_kv_letter v hv
      have hcnt : values + 1 < 32 := by simp at hcount; omega
      have hrec := ih f (values + 1) (fun q hq => hgood q (by simp [hq]))
        (by simp at hcount; omega)
        (by
          rw [hshape] at hfuel
          simp at hfuel
          omega)
      simp [hsplit1, hsplit2, hdk, hdv, hcnt, hrec]

/-- C3 counterexample: on the form slice `a=1&b=%00` the value decoder fails
on the second pair, and parse_key_values publishes nothing at all — the
already-collected pair (a,1) is discarded, not handed to the caller. -/
theorem c3_counterexample :
    parse_key_values url_decode_kv 38 [97, 61, 49, 38, 98, 61, 37, 48, 48] =
      none := by
  decide

/-- C3 amended: when the per-value decoder returns 0 on some key or value,
parse_key_values aborts the whole list and publishes nothing: the request's
list base and length are left untouched, so the pairs collected before the
failing pair are discarded rather than returned.  Stated over every
`&`-separated run of letter-only pairs followed by a pair whose value decodes
to NUL. -/
theorem c3_decode_failure_discards_all (pre : List KVPair)
    (hlen : pre.length < 32)
    (hgood : ∀ p ∈ pre, letterOnly p.1 ∧ letterOnly p.2) :
    parse_key_values url_decode_kv 38 (encodeThen [120, 61, 37, 48, 48] pre) =
      none := by
  unfold parse_key_values
  have hne : encodeThen [120, 61, 37, 48, 48] pre ≠ [] := by
    cases pre <;> simp [encodeThen, encPair]
  rw [if_neg hne]
  rw [kvLoop_bad_abort pre _ 0 hgood (by omega) (by omega)]
  rfl

/-- witness for C3's amended statement at one collected pair. -/
theorem c3_witness :
    parse_key_values url_decode_kv 38
      (encodeThen [120, 61, 37, 48, 48] [([97], [98])]) = none := by
  exact c3_decode_failure_discards_all [([97], [98])] (by decide) (by decide)

theorem url_decode_ne_nil :
    ∀ (s d : List Nat), s ≠ [] → url_decode s = some d → d ≠ [] := by
  intro s d hs h
  match s with
  | [] => exact absurd rfl hs
  | c :: rest =>
    rw [url_decode.eq_def] at h
    simp only at h
    split at h
    · rename_i h37
      split at h
      · split at h
        · split at h
          · simp at h
          · rw [Option.map_eq_some'] at h
            obtain ⟨d2, _, rfl⟩ := h
            simp
        · rw [Option.map_eq_some'] at h
          obtain ⟨d2, _, rfl⟩ := h
          simp
      · rw [Option.map_eq_some'] at h
        obtain ⟨d2, _, rfl⟩ := h
        simp
      · obtain rfl := Option.some_inj.mp h
        simp
    · split at h
      · rw [Option.map_eq_some'] at h
        obtain ⟨d2, _, rfl⟩ := h
        simp
      · rw [Option.map_eq_some'] at h
        obtain ⟨d2, _, rfl⟩ := h
        simp

/-- C7 counterexample: a `%` not followed by two hex digits does not make
url_decode fail — on `%zz` (bytes 37,122,122) the stray `%` is passed through
and the function returns length 3, not 0. -/
theorem c7_counterexample :
    url_decode [37, 122, 122] = some [37, 122, 122] ∧
    url_decode_len [37, 122, 122] = 3 := by
  decide

/-- C7 amended: url_decode decodes in place (`+` to space, `%HH` with two hex
digits to the corresponding byte) and returns the new length; it fails
(returns 0) when some well-formed `%HH` decodes to the NUL byte — but a `%`
not followed by two hex digits is passed through verbatim and decoding simply
continues, so the returned length is 0 exactly when decoding failed on a NUL
escape or the input was empty. -/
theorem c7_url_decode_behaviour :
    (∀ s, url_decode (43 :: s) = (url_decode s).map (fun d => 32 :: d)) ∧
    (∀ c s, c ≠ 37 → c ≠ 43 →
      url_decode (c :: s) = (url_decode s).map (fun d => c :: d)) ∧
    (∀ a b s, is_hex_digit a = true → is_hex_digit b = true →
      decode_hex_digit a * 16 + decode_hex_digit b ≠ 0 →
      url_decode (37 :: a :: b :: s) = (url_decode s).map
        (fun d => (decode_hex_digit a * 16 + decode_hex_digit b) :: d)) ∧
    (∀ a b s, is_hex_digit a = true → is_hex_digit b = true →
      decode_hex_digit a * 16 + decode_hex_digit b = 0 →
      url_decode (37 :: a :: b :: s) = none) ∧
    (∀ a b s, (is_hex_digit a && is_hex_digit b) = false →
      url_decode (37 :: a :: b :: s) =
        (url_decode (a :: b :: s)).map (fun d => 37 :: d)) ∧
    (∀ s, url_decode_len s = 0 ↔ (url_decode s = none ∨ s = [])) := by
  refine ⟨?_, ?_, ?_, ?_, ?_, ?_⟩
  · intro s
    rw [url_decode.eq_def]
    simp
  · intro c s h37 h43
    exact url_decode_cons c s h37 h43
  · intro a b s ha hb ht
    rw [url_decode.eq_def]
    simp [ha, hb, ht]
  · intro a b s ha hb ht
    rw [url_decode.eq_def]
    simp [ha, hb, ht]
  · intro a b s hab
    rw [url_decode.eq_def]
    simp [hab]
  · intro s
    unfold url_decode_len
    cases hu : url_decode s with
    | none => simp
    | some d =>
      simp only
      constructor
      · intro hd0
        right
        by_contra hs
        exact url_decode_ne_nil s d hs hu (List.length_eq_zero.mp hd0)
      · rintro (hnone | rfl)
        · exact absurd hnone (by simp)
        · simp only [show url_decode ([] : List Nat) = some [] from rfl] at hu
          obtain rfl := Option.some_inj.mp hu
          rfl

/-- witness for C7's amended statement: `%20x` decodes to a space then `x`,
and `%00` alone yields the length-0 failure. -/
theorem c7_witness :
    url_decode [37, 50, 48, 120] = some [32, 120] ∧
    url_decode_len [37, 48, 48] = 0 := by
  constructor
  · have h := c7_url_decode_behaviour.2.2.1 50 48 [120] (by decide) (by decide)
      (by decide)
    rw [h]
    decide
  · exact (c7_url_decode_behaviour.2.2.2.2.2 [37, 48, 48]).mpr
      (Or.inl (by decide))

/-! Part 2: socket-read finalizer and the POST body reader. -/

/-- HTTP status codes returned on the request path. -/
inductive HStatus
  | ok
  | badRequest
  | notAllowed
  | notAuthorized
  | notFound
  | timeout
  | tooLarge
  | internalError
  | notImplemented
  deriving DecidableEq, Repr

/-- lwan_read_finalizer_t. -/
inductive LwanReadFinalizer
  | done
  | tryAgain
  | yieldTryAgain
  | errorTooLarge
  deriving DecidableEq, Repr

/-- the four bytes at offset p, as read by STRING_SWITCH (the buffer is
over-allocated, so reads past the resident bytes see the virtual 0 byte). -/
def tag4 (B : List Nat) (p : Nat) : List Nat :=
  [B.getD p 0, B.getD (p + 1) 0, B.getD (p + 2) 0, B.getD (p + 3) 0]

/-- request method flags set by get_http_method. -/
inductive Method
  | notKnown
  | get
  | head
  | post
  deriving DecidableEq, Repr

/-- get_http_method: 4-byte switch on `GET `/`HEAD`/`POST`. -/
def get_http_method (B : List Nat) : Method :=
  if tag4 B 0 = [71, 69, 84, 32] then .get
  else if tag4 B 0 = [72, 69, 65, 68] then .head
  else if tag4 B 0 = [80, 79, 83, 84] then .post
  else .notKnown

/-- index of the last occurrence of a byte in a list. -/
def lastIdxOf (c : Nat) : List Nat → Option Nat
  | [] => none
  | x :: xs =>
    match lastIdxOf c xs with
    | some i => some (i + 1)
    | none => if x = c then some 0 else none

/-- the POST arm of the request-head finalizer: strrchr(buffer, '\n') on the
C string of the resident bytes, then memcmp(sep - 3, CR LF CR, 3).  The
`3 ≤ i` guard models the fact that the memcmp would otherwise read in front
of the buffer (with a POST tag in front, the last LF is always at index
≥ 4). -/
def postSepFound (buf : List Nat) : Bool :=
  match lastIdxOf 10 (buf.takeWhile (fun c => c ≠ 0)) with
  | none => false
  | some i => decide (3 ≤ i ∧ (buf.drop (i - 3)).take 3 = [13, 10, 13])

/-- read_request_finalizer: decide whether a full request head is resident.
`buf` is the list of the `total_read` resident bytes; `nr` is
helper->next_request (`none` = NULL); the second component is the
next_request value after the call (the pipelined-tail flag is reset when it
causes DONE). -/
def read_request_finalizer (total_read buffer_size : Nat) (nr : Option Nat)
    (buf : List Nat) : LwanReadFinalizer × Option Nat :=
  if total_read < 4 then (.yieldTryAgain, nr)
  else if total_read = buffer_size then (.errorTooLarge, nr)
  else if nr.isSome then (.done, none)
  else if (buf.drop (total_read - 4)).take 4 = [13, 10, 13, 10] then
    (.done, nr)
  else if get_http_method buf = .post ∧ postSepFound buf = true then
    (.done, nr)
  else (.tryAgain, nr)

/-- C4 counterexample: with a pipelined tail present and the buffer full
(total_read = buffer_size = 8 here), the finalizer declares ERROR_TOO_LARGE,
not DONE — the size check runs before the pipelined-tail check. -/
theorem c4_counterexample :
    read_request_finalizer 8 8 (some 0) [71, 69, 84, 32, 13, 10, 13, 10] =
      (LwanReadFinalizer.errorTooLarge, some 0) ∧
    (read_request_finalizer 8 8 (some 0)
        [71, 69, 84, 32, 13, 10, 13, 10]).1 ≠ LwanReadFinalizer.done := by
  constructor
  · rfl
  · decide

/-- C4 amended: the finalizer first declares YIELD_TRY_AGAIN when fewer than
4 bytes are resident, then ERROR_TOO_LARGE when total_read equals the buffer
size; only after both size checks does it declare DONE for a pipelined tail
(resetting that flag), for a trailing CR LF CR LF, or, for POST, for a last
LF preceded by CR LF CR; otherwise TRY_AGAIN.  In particular a pipelined tail
with a full buffer yields ERROR_TOO_LARGE, not DONE. -/
theorem c4_finalizer_branch_order (total_read buffer_size : Nat)
    (nr : Option Nat) (buf : List Nat) :
    (total_read < 4 →
      read_request_finalizer total_read buffer_size nr buf =
        (.yieldTryAgain, nr)) ∧
    (4 ≤ total_read → total_read = buffer_size →
      read_request_finalizer total_read buffer_size nr buf =
        (.errorTooLarge, nr)) ∧
    (4 ≤ total_read → total_read ≠ buffer_size → nr.isSome →
      read_request_finalizer total_read buffer_size nr buf = (.done, none)) ∧
    (4 ≤ total_read → total_read ≠ buffer_size → nr = none →
      (buf.drop (total_read - 4)).take 4 = [13, 10, 13, 10] →
      read_request_finalizer total_read buffer_size nr buf = (.done, none)) ∧
    (4 ≤ total_read → total_read ≠ buffer_size → nr = none →
      (buf.drop (total_read - 4)).take 4 ≠ [13, 10, 13, 10] →
      get_http_method buf = .post → postSepFound buf = true →
      read_request_finalizer total_read buffer_size nr buf = (.done, none)) ∧
    (4 ≤ total_read → total_read ≠ buffer_size → nr = none →
      (buf.drop (total_read - 4)).take 4 ≠ [13, 10, 13, 10] →
      ¬(get_http_method buf = .post ∧ postSepFound buf = true) →
      read_request_finalizer total_read buffer_size nr buf =
        (.tryAgain, none)) := by
  refine ⟨?_, ?_, ?_, ?_, ?_, ?_⟩
  · intro h1
    simp [read_request_finalizer, h1]
  · intro h1 h2
    subst h2
    have hn : ¬ total_read < 4 := by omega
    simp [read_request_finalizer, hn]
  · intro h1 h2 h3
    have hn : ¬ total_read < 4 := by omega
    simp [read_request_finalizer, hn, h2, h3]
  · intro h1 h2 h3 h4
    have hn : ¬ total_read < 4 := by omega
    simp [read_request_finalizer, hn, h2, h3, h4]
  · intro h1 h2 h3 h4 h5 h6
    have hn : ¬ total_read < 4 := by omega
    simp [read_request_finalizer, hn, h2, h3, h4, h5, h6]
  · intro h1 h2 h3 h4 h5
    have hn : ¬ total_read < 4 := by omega
    simp [read_request_finalizer, hn, h2, h3, h4, h5]

/-- witness for C4's amended statement: a pipelined tail in a non-full buffer
is DONE and resets the flag. -/
theorem c4_witness :
    read_request_finalizer 6 4096 (some 2) [71, 69, 84, 32, 13, 10] =
      (LwanReadFinalizer.done, none) := by
  exact (c4_finalizer_branch_order 6 4096 (some 2)
    [71, 69, 84, 32, 13, 10]).2.2.1 (by omega) (by omega) rfl

/-- read_post_data: POST body reader.  `parse_long` (from lwan-config.c, not
part of this file) is passed as a parameter: `parse_long clv dbs` is the value
parsed from the Content-Length string `clv` with default `dbs`
(DEFAULT_BUFFER_SIZE, also a parameter here).  Arguments: `nr` is
helper->next_request as an index into the buffer, `content_length` the
recorded Content-Length header value slice, `buf_len` the resident length.
Result: the HTTP status, the recorded post_data slice (start index, length;
`none` = left unset), and next_request after the call. -/
def read_post_data (parse_long : List Nat → Int → Int) (dbs : Int)
    (nr : Option Nat) (content_length : Option (List Nat)) (buf_len : Nat) :
    HStatus × Option (Nat × Nat) × Option Nat :=
  match nr with
  | none => (.badRequest, none, none)
  | some nrIdx =>
    match content_length with
    | none => (.badRequest, none, some nrIdx)
    | some clv =>
      let parsed := parse_long clv dbs
      if parsed > dbs then (.tooLarge, none, some nrIdx)
      else if parsed < 0 then (.badRequest, none, some nrIdx)
      else
        let size := parsed.toNat
        let resident := buf_len - nrIdx
        if resident = size then (.ok, some (nrIdx, size), some (nrIdx + size))
        else if size > resident then (.tooLarge, none, some nrIdx)
        else (.notImplemented, none, some nrIdx)

/-- C5: for a POST with parsed Content-Length `len`, 0 ≤ len ≤
DEFAULT_BUFFER_SIZE, and `have = buf_len - nrIdx` resident body bytes: if
have = len the body is recorded as the slice [next_request,
next_request+len), next_request is advanced past it, and HTTP_OK is
returned; if len > have the result is 413; if len < have it is 501; and a
parsed length above DEFAULT_BUFFER_SIZE gives 413. -/
theorem c5_read_post_data_cases (parse_long : List Nat → Int → Int)
    (dbs : Int) (nrIdx buf_len : Nat) (clv : List Nat) (len : Int)
    (hpl : parse_long clv dbs = len) :
    (0 ≤ len → len ≤ dbs → buf_len - nrIdx = len.toNat →
      read_post_data parse_long dbs (some nrIdx) (some clv) buf_len =
        (.ok, some (nrIdx, len.toNat), some (nrIdx + len.toNat))) ∧
    (0 ≤ len → len ≤ dbs → len.toNat > buf_len - nrIdx →
      read_post_data parse_long dbs (some nrIdx) (some clv) buf_len =
        (.tooLarge, none, some nrIdx)) ∧
    (0 ≤ len → len ≤ dbs → len.toNat < buf_len - nrIdx →
      read_post_data parse_long dbs (some nrIdx) (some clv) buf_len =
        (.notImplemented, none, some nrIdx)) ∧
    (len > dbs →
      read_post_data parse_long dbs (some nrIdx) (some clv) buf_len =
        (.tooLarge, none, some nrIdx)) := by
  refine ⟨?_, ?_, ?_, ?_⟩
  · intro h0 hd hhave
    have hng : ¬ len > dbs := by omega
    have hnn : ¬ len < 0 := by omega
    simp [read_post_data, hpl, hng, hnn, hhave]
  · intro h0 hd hbig
    have hng : ¬ len > dbs := by omega
    have hnn : ¬ len < 0 := by omega
    have hne : ¬ buf_len - nrIdx = len.toNat := by omega
    simp [read_post_data, hpl, hng, hnn, hne, hbig]
  · intro h0 hd hsmall
    have hng : ¬ len > dbs := by omega
    have hnn : ¬ len < 0 := by omega
    have hne : ¬ buf_len - nrIdx = len.toNat := by omega
    have hns : ¬ len.toNat > buf_len - nrIdx := by omega
    simp [read_post_data, hpl, hng, hnn, hne, hns]
  · intro hg
    simp [read_post_data, hpl, hg]

/-- witness for C5: Content-Length 7 with exactly 7 body bytes resident
after the head succeeds and advances next_request. -/
theorem c5_witness :
    read_post_data (fun _ _ => 7) 4096 (some 2) (some [55]) 9 =
      (HStatus.ok, some (2, 7), some 9) := by
  exact (c5_read_post_data_cases (fun _ _ => 7) 4096 2 9 [55] 7 rfl).1
    (by omega) (by omega) (by decide)

/-- C10: read_post_data returns 400 — leaving the post_data slice unset —
when no pipelined tail pointer is set, when no Content-Length header was
recorded, or when the parsed Content-Length is negative. -/
theorem c10_read_post_data_bad_request (parse_long : List Nat → Int → Int)
    (dbs : Int) (hdbs : 0 ≤ dbs) (nr : Option Nat)
    (cl : Option (List Nat)) (buf_len : Nat) :
    (nr = none →
      read_post_data parse_long dbs nr cl buf_len =
        (.badRequest, none, none)) ∧
    (∀ nrIdx, nr = some nrIdx → cl = none →
      read_post_data parse_long dbs nr cl buf_len =
        (.badRequest, none, some nrIdx)) ∧
    (∀ nrIdx clv, nr = some nrIdx → cl = some clv →
      parse_long clv dbs < 0 →
      read_post_data parse_long dbs nr cl buf_len =
        (.badRequest, none, some nrIdx)) := by
  refine ⟨?_, ?_, ?_⟩
  · intro h
    subst h
    rfl
  · intro nrIdx h1 h2
    subst h1
    subst h2
    rfl
  · intro nrIdx clv h1 h2 hneg
    subst h1
    subst h2
    have hng : ¬ parse_long clv dbs > dbs := by omega
    simp [read_post_data, hng, hneg]

/-- witness for C10: no Content-Length header recorded gives 400 with the
slice unset. -/
theorem c10_witness :
    read_post_data (fun _ _ => 0) 4096 (some 3) none 10 =
      (HStatus.badRequest, none, some 3) := by
  exact (c10_read_post_data_bad_request (fun _ _ => 0) 4096 (by omega)
    (some 3) none 10).2.1 3 rfl rfl

/-! Part 3: request-line path parsing. -/

/-- index of the first occurrence of a byte (memchr semantics: interior NUL
bytes do not stop the scan; the bound is the list end). -/
def firstIdxOf (c : Nat) : List Nat → Option Nat
  | [] => none
  | x :: xs => if x = c then some 0 else (firstIdxOf c xs).map (fun i => i + 1)

/-- parse_fragment_and_query: split `#fragment` off the url (searched
backwards over the whole slice), then `?query` (searched forwards over the
shortened slice).  The C function's `space` argument is the url end; slice
lengths follow from the found positions exactly as in the source.  Returns
(url, query, fragment). -/
def parse_fragment_and_query (url : List Nat) :
    List Nat × Option (List Nat) × Option (List Nat) :=
  let fq := match lastIdxOf 35 url with
    | some fi => (url.take fi, some (url.drop (fi + 1)))
    | none => (url, none)
  match firstIdxOf 63 fq.1 with
  | some qi => (fq.1.take qi, some (fq.1.drop (qi + 1)), fq.2)
  | none => (fq.1, none, fq.2)

/-- identify_http_path on the buffer suffix starting at the cursor (the
resident bytes from the cursor to the buffer end).  On success: the url slice
after fragment/query splitting, the query and fragment slices, the HTTP/1.0
flag, and the offset one past the NUL-ed CR (where header parsing starts).
`none` models every `return NULL` (HTTP 400 in the driver).  The CR is found
with memchr bounded by the resident length; `space` is CR - 9
(sizeof("HTTP/X.X")); note the code checks `space+1 == 'H'` but never that
the byte at `space` is a space. -/
def identify_http_path (rest : List Nat) :
    Option (List Nat × Option (List Nat) × Option (List Nat) × Bool × Nat) :=
  match firstIdxOf 13 rest with
  | none => none
  | some i =>
    if i < 10 then none
    else
      let space := i - 9
      if rest.getD (space + 1) 0 ≠ 72 then none
      else if rest.getD (space + 6) 0 ≠ 49 then none
      else
        let http10 := decide (rest.getD (space + 8) 0 = 48)
        if rest.getD 0 0 ≠ 47 then none
        else
          let fq := parse_fragment_and_query (rest.take space)
          some (fq.1, fq.2.1, fq.2.2, http10, i + 1)

/-- C6 counterexample: on `/abcdXHTTP/1.1` + CR the byte 8 positions back
from the CR is `H` (72) and the presumed-space byte (`X`, 9 back) is never
checked, yet identify_http_path succeeds — so success does not require a
space where the claim demands one. -/
theorem c6_counterexample :
    identify_http_path
        [47, 97, 98, 99, 100, 88, 72, 84, 84, 80, 47, 49, 46, 49, 13] =
      some ([47, 97, 98, 99, 100], none, none, false, 15) ∧
    ([47, 97, 98, 99, 100, 88, 72, 84, 84, 80, 47, 49, 46, 49,
        13].getD (14 - 8) 0 ≠ 32) ∧
    (32 ∉ [47, 97, 98, 99, 100, 88, 72, 84, 84, 80, 47, 49, 46, 49, 13]) := by
  refine ⟨by decide, by decide, by decide⟩

/-- C6 amended: identify_http_path succeeds exactly when a CR is found whose
distance i from the cursor is at least 10 (the length of `/ HTTP/1.0`), the
byte 8 back from the CR is `H`, the byte 3 back from the CR (6 after the
presumed space position i-9, which itself is never validated) is `1`, and the
cursor byte is `/`; on failure it returns NULL (HTTP 400); the HTTP/1.0 flag
is set iff the byte 1 back from the CR is `0`. -/
theorem c6_identify_http_path_checks (rest : List Nat) (i : Nat)
    (hcr : firstIdxOf 13 rest = some i) :
    (10 ≤ i → rest.getD (i - 8) 0 = 72 → rest.getD (i - 3) 0 = 49 →
      rest.getD 0 0 = 47 →
      identify_http_path rest =
        some ((parse_fragment_and_query (rest.take (i - 9))).1,
              (parse_fragment_and_query (rest.take (i - 9))).2.1,
              (parse_fragment_and_query (rest.take (i - 9))).2.2,
              decide (rest.getD (i - 1) 0 = 48), i + 1)) ∧
    (i < 10 → identify_http_path rest = none) ∧
    (10 ≤ i → rest.getD (i - 8) 0 ≠ 72 → identify_http_path rest = none) ∧
    (10 ≤ i → rest.getD (i - 8) 0 = 72 → rest.getD (i - 3) 0 ≠ 49 →
      identify_http_path rest = none) ∧
    (10 ≤ i → rest.getD (i - 8) 0 = 72 → rest.getD (i - 3) 0 = 49 →
      rest.getD 0 0 ≠ 47 → identify_http_path rest = none) := by
  refine ⟨?_, ?_, ?_, ?_, ?_⟩
  · intro h10 h72 h49 h47
    have e1 : i - 9 + 1 = i - 8 := by omega
    have e2 : i - 9 + 6 = i - 3 := by omega
    have e3 : i - 9 + 8 = i - 1 := by omega
    have hn : ¬ i < 10 := by omega
    simp only [identify_http_path, hcr, e1, e2, e3, hn, if_false]
    simp_all
  · intro hlt
    simp [identify_http_path, hcr, hlt]
  · intro h10 h72
    have e1 : i - 9 + 1 = i - 8 := by omega
    have hn : ¬ i < 10 := by omega
    simp only [identify_http_path, hcr, e1, hn, if_false]
    simp_all
  · intro h10 h72 h49
    have e1 : i - 9 + 1 = i - 8 := by omega
    have e2 : i - 9 + 6 = i - 3 := by omega
    have hn : ¬ i < 10 := by omega
    simp only [identify_http_path, hcr, e1, e2, hn, if_false]
    simp_all
  · intro h10 h72 h49 h47
    have e1 : i - 9 + 1 = i - 8 := by omega
    have e2 : i - 9 + 6 = i - 3 := by omega
    have hn : ¬ i < 10 := by omega
    simp only [identify_http_path, hcr, e1, e2, hn, if_false]
    simp_all

/-- witness for C6's amended statement on the minimal request line
`/ HTTP/1.1` + CR. -/
theorem c6_witness :
    identify_http_path [47, 32, 72, 84, 84, 80, 47, 49, 46, 49, 13] =
      some ([47], none, none, false, 11) := by
  have h := (c6_identify_http_path_checks
    [47, 32, 72, 84, 84, 80, 47, 49, 46, 49, 13] 10 (by decide)).1
    (by omega) (by decide) (by decide) (by decide)
  rw [h]
  decide

/-! Part 4: header parsing, the socket read loop, and the dispatch driver. -/

/-- strchr-style scan (stops at a NUL byte) for `c`, over a list. -/
def cstrFind (c : Nat) : List Nat → Option Nat
  | [] => none
  | x :: xs =>
    if x = 0 then none
    else if x = c then some 0
    else (cstrFind c xs).map (fun i => i + 1)

/-- strchr(B + r, c) as an absolute index (the buffer is NUL-terminated right
after the resident bytes, so the scan never leaves them). -/
def strchrFrom (B : List Nat) (r c : Nat) : Option Nat :=
  (cstrFind c (B.drop r)).map (fun i => i + r)

/-- memchr(B + p, c, len - p) as an absolute index. -/
def memchrFrom (B : List Nat) (p c : Nat) : Option Nat :=
  (firstIdxOf c (B.drop p)).map (fun i => i + p)

/-- the header slices recorded by parse_headers, plus the connection tag
(`*value | 0x20`, 0 when no Connection header was seen). -/
structure Headers where
  accept_encoding : Option (List Nat) := none
  if_modified_since : Option (List Nat) := none
  range : Option (List Nat) := none
  cookie : Option (List Nat) := none
  content_length : Option (List Nat) := none
  content_type : Option (List Nat) := none
  authorization : Option (List Nat) := none
  connection : Nat := 0
  deriving Repr, DecidableEq

/-- the four bytes at offset p with 0x20 OR-ed into each, as read by the
case-folding STRING_SWITCH_L used for header-name dispatch (the `_L` macro
from lwan.h, outside src/, ORs 0x20202020 into the loaded word). -/
def tag4L (B : List Nat) (p : Nat) : List Nat :=
  (tag4 B p).map (fun c => Nat.lor c 32)

/-- the header field a MATCH_HEADER case stores into. -/
inductive HdrField
  | accEnc
  | ifMod
  | rng
  | cook
  | cLen
  | cTyp
  | auth
  | conn
  deriving Repr, DecidableEq

/-- the store performed when a header matched; Connection keeps only the
lowercased first value byte (`*value | 0x20`). -/
def storeHdr : HdrField → Headers → List Nat → Headers
  | .accEnc, h, v => { h with accept_encoding := some v }
  | .ifMod, h, v => { h with if_modified_since := some v }
  | .rng, h, v => { h with range := some v }
  | .cook, h, v => { h with cookie := some v }
  | .cLen, h, v => { h with content_length := some v }
  | .cTyp, h, v => { h with content_type := some v }
  | .auth, h, v => { h with authorization := some v }
  | .conn, h, v => { h with connection := Nat.lor (v.headD 0) 32 }

/-- control position inside parse_headers: the top of the for loop, the
`retry` label, the middle of a MATCH_HEADER expansion, or the
`did_not_match` label. -/
inductive PHMode
  | line (p : Nat)
  | retry (p : Nat)
  | value (q : Nat) (f : HdrField)
  | dnm (p : Nat)
  deriving Repr

/-- parse_headers as a fuel-driven state machine over the four control
positions.  Every transition either strictly advances the cursor or moves to
a later position at the same cursor, so the generous fuel at the call site is
never exhausted.  `none` models `return NULL` (the out-of-bounds check inside
MATCH_HEADER); otherwise the result is the recorded headers and
helper->next_request (set only by the blank-line case). -/
def phGo (B : List Nat) : Nat → PHMode → Headers →
    Option (Headers × Option Nat)
  | 0, _, H => some (H, none)
  | fuel + 1, mode, H =>
    match mode with
    | .line p =>
      if B.getD p 0 = 0 then some (H, none)
      else phGo B fuel (.retry p) H
    | .retry p =>
      if B.length ≤ p + 4 then some (H, none)
      else if B.getD p 0 = 13 ∧ B.getD (p + 1) 0 = 10 then
        some (H, some (p + 2))
      else if tag4L B p = [45, 101, 110, 99] then
        phGo B fuel (.value (p + 9) .accEnc) H
      else if tag4L B p = [45, 116, 121, 112] then
        phGo B fuel (.value (p + 5) .cTyp) H
      else if tag4L B p = [45, 108, 101, 110] then
        phGo B fuel (.value (p + 7) .cLen) H
      else if tag4L B p = [97, 99, 99, 101] then phGo B fuel (.retry (p + 6)) H
      else if tag4L B p = [97, 117, 116, 104] then
        phGo B fuel (.value (p + 13) .auth) H
      else if tag4L B p = [99, 111, 110, 110] then
        phGo B fuel (.value (p + 10) .conn) H
      else if tag4L B p = [99, 111, 110, 116] then phGo B fuel (.retry (p + 7)) H
      else if tag4L B p = [99, 111, 111, 107] then
        phGo B fuel (.value (p + 6) .cook) H
      else if tag4L B p = [105, 102, 45, 109] then
        phGo B fuel (.value (p + 17) .ifMod) H
      else if tag4L B p = [114, 97, 110, 103] then
        phGo B fuel (.value (p + 5) .rng) H
      else phGo B fuel (.dnm p) H
    | .value q f =>
      if B.length ≤ q then none
      else if B.getD q 0 = 58 ∧ B.getD (q + 1) 0 = 32 then
        match strchrFrom B (q + 2) 13 with
        | none => phGo B fuel (.dnm (q + 2)) H
        | some e =>
          if B.getD (e + 1) 0 = 10 then
            phGo B fuel (.line (e + 2))
              (storeHdr f H ((B.drop (q + 2)).take (e - (q + 2))))
          else phGo B fuel (.dnm (e + 1)) H
      else phGo B fuel (.dnm q) H
    | .dnm p =>
      match memchrFrom B p 10 with
      | none => some (H, none)
      | some m => phGo B fuel (.line (m + 1)) H

/-- is_space: the SWAR test accepts space, tab, LF, CR (for the 7-bit bytes
that occur in HTTP text). -/
def is_space (c : Nat) : Bool := c = 32 || c = 9 || c = 10 || c = 13

/-- ignore_leading_whitespace: skip space bytes, stopping at a NUL. -/
def ignore_leading_whitespace (B : List Nat) (p : Nat) : Nat :=
  p + ((B.drop p).takeWhile (fun c => c ≠ 0 && is_space c)).length

/-- the cursor advance for each recognised method (sizeof the literal with
its trailing space, minus one). -/
def method_length : Method → Nat
  | .notKnown => 0
  | .get => 4
  | .head => 5
  | .post => 5

/-- the accept-encoding token scan: at each token start match 4 bytes against
`defl`/` def`/`gzip`/` gzi`, then hop to the byte after the next comma. -/
def paeGo : Nat → List Nat → Bool → Bool → Bool × Bool
  | 0, _, d, g => (d, g)
  | fuel + 1, l, d, g =>
    match l with
    | [] => (d, g)
    | x :: _ =>
      if x = 0 then (d, g)
      else
        let t := tag4 l 0
        let d2 := d || decide (t = [100, 101, 102, 108] ∨ t = [32, 100, 101, 102])
        let g2 := g || decide (t = [103, 122, 105, 112] ∨ t = [32, 103, 122, 105])
        match cstrFind 44 l with
        | none => (d2, g2)
        | some i => paeGo fuel (l.drop (i + 1)) d2 g2

/-- `application/x-www-form-urlencoded`. -/
def formUrlencoded : List Nat :=
  [97, 112, 112, 108, 105, 99, 97, 116, 105, 111, 110, 47, 120, 45, 119, 119,
   119, 45, 102, 111, 114, 109, 45, 117, 114, 108, 101, 110, 99, 111, 100,
   101, 100]

/-- the request/helper state carried through prepare_for_response and the
rewrite loop (the parts of lwan_request_t and the helper that the dispatch
driver reads or writes). -/
structure DState where
  url : List Nat
  isPost : Bool
  query_string : Option (List Nat) := none
  fragment : Option (List Nat) := none
  cookie : Option (List Nat) := none
  content_type : Option (List Nat) := none
  accept_encoding : Option (List Nat) := none
  if_modified_since_raw : Option (List Nat) := none
  range_raw : Option (List Nat) := none
  authorization : Option (List Nat) := none
  post_body : Option (List Nat) := none
  query_params : List KVPair := []
  post_params : List KVPair := []
  cookie_params : List KVPair := []
  ifms : Int := 0
  rangeFrom : Int := 0
  rangeTo : Int := 0
  acceptDeflate : Bool := false
  acceptGzip : Bool := false
  deriving Repr

/-- parse_if_modified_since: strptime with the RFC-1123 format plus the
trailing-garbage check and timegm are libc calls, abstracted as the oracle
`im` (`some t` = complete parse to epoch seconds t). -/
def parse_if_modified_since_m (im : List Nat → Option Int) (s : DState) :
    DState :=
  match s.if_modified_since_raw with
  | none => s
  | some v =>
    if v = [] then s
    else
      match im v with
      | none => s
      | some t => { s with ifms := t }

/-- parse_range: the length and `bytes=` prefix checks are from the source;
the sscanf case analysis after the prefix is libc, abstracted as the oracle
`rg` returning the (from, to) pair the code assigns. -/
def parse_range_m (rg : List Nat → Int × Int) (s : DState) : DState :=
  match s.range_raw with
  | none => s
  | some v =>
    if v.length ≤ 6 then s
    else if strncmp 6 v [98, 121, 116, 101, 115, 61] ≠ 0 then s
    else
      let r := rg (v.drop 6)
      { s with rangeFrom := r.1, rangeTo := r.2 }

/-- parse_accept_encoding over the recorded header slice. -/
def parse_accept_encoding_m (s : DState) : DState :=
  match s.accept_encoding with
  | none => s
  | some v =>
    if v = [] then s
    else
      let r := paeGo (v.length + 1) v s.acceptDeflate s.acceptGzip
      { s with acceptDeflate := r.1, acceptGzip := r.2 }

/-- parse_post_data: only when Content-Type is exactly
`application/x-www-form-urlencoded` (length check then strcmp). -/
def parse_post_data_m (s : DState) : DState :=
  let ct := s.content_type.getD []
  if ct.length ≠ 33 then s
  else if ct ≠ formUrlencoded then s
  else
    match parse_key_values url_decode_kv 38 (s.post_body.getD []) with
    | some l => { s with post_params := l }
    | none => s

/-- the handler map entry: prefix length, handler-declared parse flags, the
authorization outcome (lwan_http_authorize is external), and the handler
itself, returning its status and — when it rewrote the URL and set
RESPONSE_URL_REWRITTEN — the new url slice. -/
structure UrlMapM where
  plen : Nat := 0
  parseQuery : Bool := false
  parseIfMod : Bool := false
  parseRange : Bool := false
  parseAcceptEnc : Bool := false
  parseCookies : Bool := false
  parsePostData : Bool := false
  mustAuthorize : Bool := false
  removeSlash : Bool := false
  canRewrite : Bool := false
  authOk : Bool := true
  handler : List Nat → HStatus × Option (List Nat)

/-- prepare_for_response: strip the matched prefix, run the handler-declared
parsers, enforce the POST form-parsing and authorization requirements, and
optionally strip leading slashes. -/
def prepare_for_response (im : List Nat → Option Int)
    (rg : List Nat → Int × Int) (um : UrlMapM) (s : DState) :
    HStatus × DState :=
  let s := { s with url := s.url.drop um.plen }
  let s := if um.parseQuery then
      match parse_key_values url_decode_kv 38 (s.query_string.getD []) with
      | some l => { s with query_params := l }
      | none => s
    else s
  let s := if um.parseIfMod then parse_if_modified_since_m im s else s
  let s := if um.parseRange then parse_range_m rg s else s
  let s := if um.parseAcceptEnc then parse_accept_encoding_m s else s
  let s := if um.parseCookies then
      match parse_key_values identity_decode 59 (s.cookie.getD []) with
      | some l => { s with cookie_params := l }
      | none => s
    else s
  if s.isPost ∧ ¬ um.parsePostData then (.notAllowed, s)
  else
    let s := if s.isPost then parse_post_data_m s else s
    if um.mustAuthorize ∧ ¬ um.authOk then (.notAuthorized, s)
    else
      let s := if um.removeSlash then
          { s with url := s.url.dropWhile (fun c => c = 47) }
        else s
      (.ok, s)

/-- the state update performed by handle_rewrite: re-split fragment and query
from the handler-written url; the helper slices are overwritten only when the
respective marker is found. -/
def rewriteState (s : DState) (newUrl : List Nat) : DState :=
  let fq := parse_fragment_and_query newUrl
  { s with url := fq.1,
           query_string := match fq.2.1 with
             | some q => some q
             | none => s.query_string,
           fragment := match fq.2.2 with
             | some f => some f
             | none => s.fragment }

/-- handle_rewrite: clear the rewritten flag (implicit here), re-parse
fragment/query, bump urls_rewritten, and report whether the driver may loop
(false means the 500 was emitted and the loop stops). -/
def handle_rewrite (s : DState) (counter : Nat) (newUrl : List Nat) :
    DState × Nat × Bool :=
  (rewriteState s newUrl, counter + 1, decide (counter + 1 ≤ 4))

/-- outcome of the lookup/prepare/invoke/rewrite loop: the responses emitted
(in order), the final urls_rewritten counter, the number of trie lookups
performed, and whether the (unreachable) fuel bound was hit. -/
structure DispRes where
  emitted : List HStatus
  counter : Nat
  lookups : Nat
  stuck : Bool
  deriving Repr

/-- the `lookup_again` loop of lwan_process_request.  `lookup` is
lwan_trie_lookup_prefix (external); fuel only bounds the recursion and is
unreachable at the call site because the counter check stops the loop after
at most 4 successful rewrites. -/
def dispatchLoop (lookup : List Nat → Option UrlMapM)
    (im : List Nat → Option Int) (rg : List Nat → Int × Int) :
    Nat → Nat → DState → DispRes
  | 0, counter, _ => ⟨[], counter, 0, true⟩
  | fuel + 1, counter, s =>
    match lookup s.url with
    | none => ⟨[.notFound], counter, 1, false⟩
    | some um =>
      match prepare_for_response im rg um s with
      | (st, s2) =>
        if st ≠ .ok then ⟨[st], counter, 1, false⟩
        else
          match um.handler s2.url with
          | (hst, rw) =>
            match (if um.canRewrite then rw else none) with
            | some newUrl =>
              match handle_rewrite s2 counter newUrl with
              | (s3, c2, cont) =>
                if cont then
                  let r := dispatchLoop lookup im rg fuel c2 s3
                  ⟨r.emitted, r.counter, r.lookups + 1, r.stuck⟩
                else ⟨[.internalError], c2, 1, false⟩
            | none => ⟨[hst], counter, 1, false⟩

/-- one socket read() outcome, as seen by the read loop. -/
inductive ReadEvt
  | closed
  | againOrIntr
  | fatalErr
  | chunk (data : List Nat)
  deriving Repr

/-- outcome of read_from_request_socket: coroutine abort, model-boundary
(the event oracle ran dry mid-loop), or a status with the final resident
bytes and next_request. -/
inductive ReadRes
  | aborted
  | outOfEvents
  | result (st : HStatus) (B : List Nat) (nr : Option Nat)
  deriving Repr, DecidableEq

/-- the bounded read loop of read_from_request_socket, specialised (as at the
only call site) to read_request_finalizer.  `packets` is packets_remaining;
each iteration consumes one read event; EAGAIN/EINTR yields and retries,
n == 0 aborts the coroutine, other errors return 400 when nothing was read
yet and abort otherwise; after a successful read the finalizer decides. -/
def readLoop (bufSize : Nat) :
    List ReadEvt → Nat → List Nat → Option Nat → ReadRes
  | _, 0, B, nr => .result .timeout B nr
  | [], _ + 1, _, _ => .outOfEvents
  | e :: ev, packets + 1, B, nr =>
    match e with
    | .closed => .aborted
    | .againOrIntr => readLoop bufSize ev packets B nr
    | .fatalErr =>
      if B.length = 0 then .result .badRequest B nr else .aborted
    | .chunk d =>
      let d2 := d.take (bufSize - B.length)
      if d2 = [] then .aborted
      else
        let B2 := B ++ d2
        match read_request_finalizer B2.length bufSize nr B2 with
        | (.done, nr2) => .result .ok B2 nr2
        | (.tryAgain, nr2) => readLoop bufSize ev packets B2 nr2
        | (.yieldTryAgain, nr2) => readLoop bufSize ev packets B2 nr2
        | (.errorTooLarge, nr2) => .result .tooLarge B2 nr2

/-- read_from_request_socket: fast path for a resident pipelined tail (the
memmove of the tail to the buffer head becomes a drop), then the read loop;
the fast path jumps straight to finalization, and a TRY_AGAIN from there
continues into the loop with one budget slot already used. -/
def read_from_request_socket (bufSize : Nat) (ev : List ReadEvt)
    (B0 : List Nat) (nr0 : Option Nat) : ReadRes :=
  match nr0 with
  | some i =>
    let B := B0.drop i
    match read_request_finalizer B.length bufSize nr0 B with
    | (.done, nr2) => .result .ok B nr2
    | (.errorTooLarge, nr2) => .result .tooLarge B nr2
    | (.tryAgain, nr2) => readLoop bufSize ev 15 B nr2
    | (.yieldTryAgain, nr2) => readLoop bufSize ev 15 B nr2
  | none => readLoop bufSize ev 16 [] none

/-- result of parse_http_request: the status plus every field of the request
and helper that the driver reads afterwards. -/
structure PHOut where
  status : HStatus
  nr : Option Nat := none
  url : List Nat := []
  http10 : Bool := false
  method : Method := .notKnown
  keepAlive : Bool := false
  headers : Headers := {}
  query_string : Option (List Nat) := none
  fragment : Option (List Nat) := none
  post_data : Option (Nat × Nat) := none
  deriving Repr

/-- parse_proxy_protocol: dispatch on the leading 4 bytes.  The v1/v2 bodies
call inet_pton and read wire structs (outside the shallow embedding), so
they are oracle parameters returning the post-preamble offset or `none` for
a malformed preamble; all theorems below fix the proxy-allowed flag to
false, so the oracles are never consulted there. -/
def parse_proxy_protocol (pv1 pv2 : List Nat → Option Nat) (B : List Nat) :
    Option Nat :=
  if tag4 B 0 = [80, 82, 79, 88] then pv1 B
  else if tag4 B 0 = [13, 10, 13, 10] then pv2 B
  else some 0

/-- parse_http_request: optional proxy preamble, leading-whitespace skip,
method, path, headers, in-place url decode, keep-alive computation, and the
POST body.  `parse_long` and DEFAULT_BUFFER_SIZE (`dbs`) are parameters as in
read_post_data. -/
def parse_http_request (pv1 pv2 : List Nat → Option Nat) (allowProxy : Bool)
    (parse_long : List Nat → Int → Int) (dbs : Int) (B : List Nat) : PHOut :=
  match (if allowProxy then parse_proxy_protocol pv1 pv2 B else some 0) with
  | none => { status := .badRequest }
  | some p0 =>
    let p1 := ignore_leading_whitespace B p0
    let m := get_http_method (B.drop p1)
    if m = .notKnown then
      if B.getD p1 0 = 0 then { status := .badRequest }
      else { status := .notAllowed }
    else
      match identify_http_path (B.drop (p1 + method_length m)) with
      | none => { status := .badRequest, method := m }
      | some (url0, q, fr, http10, nextRel) =>
        match phGo B (4 * (B.length + 2))
            (.line (p1 + method_length m + nextRel)) {} with
        | none => { status := .badRequest, method := m }
        | some (H, nr) =>
          match url_decode url0 with
          | none =>
            { status := .badRequest, method := m, nr := nr, headers := H }
          | some durl =>
            if durl = [] then
              { status := .badRequest, method := m, nr := nr, headers := H }
            else
              let keep : Bool :=
                if http10 then decide (H.connection = 107)
                else decide (H.connection ≠ 99)
              if m = .post then
                match read_post_data parse_long dbs nr H.content_length
                    B.length with
                | (st, slice, nr2) =>
                  if st ≠ .ok then
                    { status := st, method := m, nr := nr2, headers := H,
                      keepAlive := keep }
                  else
                    { status := .ok, nr := nr2, url := durl, http10 := http10,
                      method := m, keepAlive := keep, headers := H,
                      query_string := q, fragment := fr, post_data := slice }
              else
                { status := .ok, nr := nr, url := durl, http10 := http10,
                  method := m, keepAlive := keep, headers := H,
                  query_string := q, fragment := fr }

/-- outcome of one lwan_process_request dispatch cycle: the responses emitted
to the client (in order), whether the coroutine was aborted, the returned
next_request pointer, and the final urls_rewritten counter. -/
structure ProcRes where
  emitted : List HStatus := []
  aborted : Bool := false
  stuck : Bool := false
  ret : Option Nat := none
  rewrites : Nat := 0
  deriving Repr, DecidableEq

/-- lwan_process_request: frame bytes, parse, then the lookup/invoke/rewrite
loop.  A bad request from the read phase with a pipelined tail resident is
returned silently; every other read failure emits the status and aborts the
coroutine; a parse failure emits the status and returns the tail. -/
def lwan_process_request (ev : List ReadEvt) (bufSize : Nat)
    (pv1 pv2 : List Nat → Option Nat) (allowProxy : Bool)
    (parse_long : List Nat → Int → Int) (dbs : Int)
    (im : List Nat → Option Int) (rg : List Nat → Int × Int)
    (lookup : List Nat → Option UrlMapM)
    (B0 : List Nat) (nr0 : Option Nat) : ProcRes :=
  match read_from_request_socket bufSize ev B0 nr0 with
  | .aborted => { aborted := true }
  | .outOfEvents => { stuck := true }
  | .result st B nr =>
    if st = .ok then
      let ph := parse_http_request pv1 pv2 allowProxy parse_long dbs B
      if ph.status ≠ .ok then { emitted := [ph.status], ret := ph.nr }
      else
        let s : DState :=
          { url := ph.url, isPost := decide (ph.method = .post),
            query_string := ph.query_string, fragment := ph.fragment,
            cookie := ph.headers.cookie,
            content_type := ph.headers.content_type,
            accept_encoding := ph.headers.accept_encoding,
            if_modified_since_raw := ph.headers.if_modified_since,
            range_raw := ph.headers.range,
            authorization := ph.headers.authorization,
            post_body := ph.post_data.map (fun pr => (B.drop pr.1).take pr.2) }
        let r := dispatchLoop lookup im rg 8 0 s
        { emitted := r.emitted, ret := ph.nr, rewrites := r.counter,
          stuck := r.stuck }
    else if st = .badRequest ∧ nr.isSome then { ret := nr }
    else { emitted := [st], aborted := true, ret := nr }

/-- C8 counterexample: a handler that rewrites unconditionally drives
urls_rewritten to 5 — the counter is incremented before the `> 4` check, so
it does exceed 4 on the attempt that triggers the 500. -/
theorem c8_counterexample :
    (lwan_process_request [] 4096 (fun _ => none) (fun _ => none) false
      (fun _ _ => 0) 4096 (fun _ => none) (fun _ => (0, 0))
      (fun _ => some { plen := 0, canRewrite := true,
                       handler := fun u => (HStatus.ok, some u) })
      [71, 69, 84, 32, 47, 32, 72, 84, 84, 80, 47, 49, 46, 49, 13, 10, 13, 10]
      (some 0)).rewrites = 5 ∧
    (lwan_process_request [] 4096 (fun _ => none) (fun _ => none) false
      (fun _ _ => 0) 4096 (fun _ => none) (fun _ => (0, 0))
      (fun _ => some { plen := 0, canRewrite := true,
                       handler := fun u => (HStatus.ok, some u) })
      [71, 69, 84, 32, 47, 32, 72, 84, 84, 80, 47, 49, 46, 49, 13, 10, 13, 10]
      (some 0)).emitted = [HStatus.internalError] ∧
    ¬ (5 ≤ 4) := by
  refine ⟨by decide, by decide, by decide⟩

/-- C8 amended: starting from a fresh dispatch (counter 0, or any counter at
most 4), the rewrite counter never exceeds 5, at most 5 - counter trie
lookups are performed, and the counter reaches 5 only on the attempt at a
5th rewrite, in which case HTTP 500 is the (last) response emitted and the
loop stops instead of performing another lookup. -/
theorem c8_rewrite_counter_bound (lookup : List Nat → Option UrlMapM)
    (im : List Nat → Option Int) (rg : List Nat → Int × Int) :
    ∀ (fuel counter : Nat) (s : DState), counter ≤ 4 →
      (dispatchLoop lookup im rg fuel counter s).counter ≤ 5 ∧
      (dispatchLoop lookup im rg fuel counter s).lookups ≤ 5 - counter ∧
      ((dispatchLoop lookup im rg fuel counter s).counter = 5 →
        (dispatchLoop lookup im rg fuel counter s).emitted.getLast? =
          some HStatus.internalError) := by
  intro fuel
  induction fuel with
  | zero =>
    intro counter s hc
    have heq : dispatchLoop lookup im rg 0 counter s =
        ⟨[], counter, 0, true⟩ := rfl
    rw [heq]
    dsimp only
    exact ⟨by omega, by omega, fun h5 => absurd h5 (by omega)⟩
  | succ f ih =>
    intro counter s hc
    cases hl : lookup s.url with
    | none =>
      have heq : dispatchLoop lookup im rg (f + 1) counter s =
          ⟨[.notFound], counter, 1, false⟩ := by
        simp [dispatchLoop, hl]
      rw [heq]
      dsimp only
      exact ⟨by omega, by omega, fun h5 => absurd h5 (by omega)⟩
    | some um =>
      rcases hpr : prepare_for_response im rg um s with ⟨st, s2⟩
      by_cases hst : st = HStatus.ok
      · subst hst
        rcases hh : um.handler s2.url with ⟨hstat, rw2⟩
        cases hrw : (if um.canRewrite then rw2 else none) with
        | none =>
          have heq : dispatchLoop lookup im rg (f + 1) counter s =
              ⟨[hstat], counter, 1, false⟩ := by
            simp [dispatchLoop, hl, hpr, hh, hrw]
          rw [heq]
          dsimp only
          exact ⟨by omega, by omega, fun h5 => absurd h5 (by omega)⟩
        | some newUrl =>
          by_cases h4 : counter + 1 ≤ 4
          · have hrec := ih (counter + 1) (rewriteState s2 newUrl) (by omega)
            have heq : dispatchLoop lookup im rg (f + 1) counter s =
                ⟨(dispatchLoop lookup im rg f (counter + 1)
                    (rewriteState s2 newUrl)).emitted,
                 (dispatchLoop lookup im rg f (counter + 1)
                    (rewriteState s2 newUrl)).counter,
                 (dispatchLoop lookup im rg f (counter + 1)
                    (rewriteState s2 newUrl)).lookups + 1,
                 (dispatchLoop lookup im rg f (counter + 1)
                    (rewriteState s2 newUrl)).stuck⟩ := by
              simp [dispatchLoop, hl, hpr, hh, hrw, handle_rewrite, h4]
            rw [heq]
            dsimp only
            exact ⟨hrec.1, by have := hrec.2.1; omega, hrec.2.2⟩
          · have heq : dispatchLoop lookup im rg (f + 1) counter s =
                ⟨[.internalError], counter + 1, 1, false⟩ := by
              simp [dispatchLoop, hl, hpr, hh, hrw, handle_rewrite, h4]
            rw [heq]
            dsimp only
            exact ⟨by omega, by omega, fun _ => rfl⟩
      · have heq : dispatchLoop lookup im rg (f + 1) counter s =
            ⟨[st], counter, 1, false⟩ := by
          simp [dispatchLoop, hl, hpr, hst]
        rw [heq]
        dsimp only
        exact ⟨by omega, by omega, fun h5 => absurd h5 (by omega)⟩

/-- witness for C8's amended statement at a concrete empty-trie dispatch. -/
theorem c8_witness :
    (dispatchLoop (fun _ => none) (fun _ => none) (fun _ => (0, 0)) 6 0
        { url := [47], isPost := false }).counter ≤ 5 := by
  exact (c8_rewrite_counter_bound (fun _ => none) (fun _ => none)
    (fun _ => (0, 0)) 6 0 { url := [47], isPost := false } (by omega)).1

/-- C9 counterexample: the pipelined buffer
`GET /%00 HTTP/1.1 CRLF CRLF GET / HTTP/1.1 CRLF CRLF` frames via the
fast path, parse_headers records next_request = 21 (the second request), and
then url_decode fails on `/%00`, a parse-phase HTTP 400.  The driver emits
the 400 response even though a pipelined tail is resident — it does not
return silently. -/
theorem c9_counterexample :
    lwan_process_request [] 4096 (fun _ => none) (fun _ => none) false
        (fun _ _ => 0) 4096 (fun _ => none) (fun _ => (0, 0)) (fun _ => none)
        [71, 69, 84, 32, 47, 37, 48, 48, 32, 72, 84, 84, 80, 47, 49, 46, 49,
         13, 10, 13, 10, 71, 69, 84, 32, 47, 32, 72, 84, 84, 80, 47, 49, 46,
         49, 13, 10, 13, 10] (some 0) =
      { emitted := [HStatus.badRequest], ret := some 21 } ∧
    [HStatus.badRequest] ≠ ([] : List HStatus) := by
  refine ⟨by decide, by decide⟩

/-- C9 amended: only a bad request from the socket-read phase with a
pipelined tail resident is suppressed — no response is emitted and the tail
is returned so the next pipelined request can be processed.  A bad request
from the parse phase is not suppressed: lwan_default_response emits the 400
and the (parse-recorded) tail is returned afterwards. -/
theorem c9_bad_request_pipelined (ev : List ReadEvt) (bufSize : Nat)
    (pv1 pv2 : List Nat → Option Nat) (allowProxy : Bool)
    (parse_long : List Nat → Int → Int) (dbs : Int)
    (im : List Nat → Option Int) (rg : List Nat → Int × Int)
    (lookup : List Nat → Option UrlMapM) (B0 : List Nat)
    (nr0 : Option Nat) :
    (∀ B t, read_from_request_socket bufSize ev B0 nr0 =
        .result .badRequest B (some t) →
      lwan_process_request ev bufSize pv1 pv2 allowProxy parse_long dbs im rg
          lookup B0 nr0 =
        { emitted := [], aborted := false, stuck := false, ret := some t,
          rewrites := 0 }) ∧
    (∀ B nr, read_from_request_socket bufSize ev B0 nr0 =
        .result .ok B nr →
      (parse_http_request pv1 pv2 allowProxy parse_long dbs B).status =
        .badRequest →
      lwan_process_request ev bufSize pv1 pv2 allowProxy parse_long dbs im rg
          lookup B0 nr0 =
        { emitted := [HStatus.badRequest], aborted := false, stuck := false,
          ret := (parse_http_request pv1 pv2 allowProxy parse_long dbs
            B).nr, rewrites := 0 }) := by
  constructor
  · intro B t hread
    simp [lwan_process_request, hread]
  · intro B nr hread hparse
    simp [lwan_process_request, hread, hparse]

/-- witness for C9's amended statement: an empty pipelined tail followed by a
fatal read error is a read-phase 400 with the tail still set; the driver
emits nothing and returns the tail. -/
theorem c9_witness :
    lwan_process_request [ReadEvt.fatalErr] 4096 (fun _ => none)
        (fun _ => none) false (fun _ _ => 0) 4096 (fun _ => none)
        (fun _ => (0, 0)) (fun _ => none) [71, 69, 84, 32, 47] (some 5) =
      { emitted := [], aborted := false, stuck := false, ret := some 5,
        rewrites := 0 } := by
  exact (c9_bad_request_pipelined [ReadEvt.fatalErr] 4096 (fun _ => none)
    (fun _ => none) false (fun _ _ => 0) 4096 (fun _ => none)
    (fun _ => (0, 0)) (fun _ => none) [71, 69, 84, 32, 47] (some 5)).1
    [] 5 (by decide)
